import Mathlib

/-!
Verification development for the vehicle-export MCP demo.

The repository has three layers:
* `data_source.py` — a FastAPI inventory store over an in-memory dict of
  vehicle records (embedded below in namespace `DataSource`);
* `mcp_server.py` — the Tool Adapter: five MCP tools that call the store over
  HTTP and reduce every outcome to a descriptive string (namespace `McpServer`);
* `mcp_client.py` — the Conversation Driver: a Gemini function-calling loop
  plus the `clean_schema` sanitizer (namespace `McpClient`).

HTTP effects are made explicit: every place the Python code performs an HTTP
request, the embedding takes the outcome of that request as a parameter
(`HttpOutcome`), and Python exceptions are modelled with `Except PyErr`.
A "healthy transport" composition (`run_get`, `run_change_status`,
`run_search`) wires the adapter directly to the pure store endpoints, which is
how end-to-end store-level claims are settled.
-/

/-- Python exceptions that can cross the boundary of an adapter operation:
`httpx.TimeoutException` (with its `str(e)` rendering) or any other
exception (with its message). -/
inductive PyErr where
  | timeout : String → PyErr
  | exn : String → PyErr
deriving DecidableEq, Repr

/-- Outcome of one HTTP request: a response with a status code and a parsed
JSON body of type `α`, a timeout, or another transport exception. -/
inductive HttpOutcome (α : Type) where
  | success : Nat → α → HttpOutcome α
  | timeout : String → HttpOutcome α
  | exn : String → HttpOutcome α
deriving DecidableEq, Repr

/-- One vehicle record of the mock database (the value part of the
`VEHICLES` dict in `data_source.py`). -/
structure Vehicle where
  make : String
  model : String
  status : String
  destination : String
deriving DecidableEq, Repr

/-- A row as served over HTTP: `{"id": vid, **details}`. -/
abbrev Row := String × Vehicle

/-- The `VEHICLES` dict: insertion-ordered mapping from id to record. -/
abbrev Store := List Row

/-- Python `term in value` on strings: `needle` occurs as a contiguous
substring of `hay`. -/
def containsSub (hay needle : String) : Bool :=
  (List.range (hay.data.length + 1)).any fun i =>
    needle.data.isPrefixOf (hay.data.drop i)

/-- Python `str.lower()`, as a character-wise map (the records and queries
of this demo are ASCII). -/
def lowerStr (s : String) : String := String.mk (s.data.map Char.toLower)

/-- Python truthiness of an optional string: `None` and `""` are falsy. -/
def truthyStr : Option String → Bool
  | none => false
  | some s => !s.isEmpty

/-- `", ".join(...)`. -/
def joinComma (l : List String) : String := String.intercalate ", " l

/-- `"\n".join(...)`. -/
def joinLines (l : List String) : String := String.intercalate "\n" l

namespace DataSource

/-- The seed data of `data_source.py` (`VEHICLES`). -/
def VEHICLES : Store :=
  [("101", ⟨"Toyota", "HiAce", "In Port", "Colombo"⟩),
   ("102", ⟨"Honda", "Fit", "Shipped", "Kandy"⟩),
   ("103", ⟨"Ford", "Transit", "In Port", "Galle"⟩),
   ("104", ⟨"Tesla", "Model X", "Shipped", "Trincomalee"⟩),
   ("105", ⟨"Nissan", "NV200", "In Port", "Trincomalee"⟩)]

/-- Dict lookup `VEHICLES[vehicle_id]` / membership `vehicle_id in VEHICLES`. -/
def lookupV (s : Store) (vid : String) : Option Vehicle :=
  match s with
  | [] => none
  | r :: rest => if r.1 = vid then some r.2 else lookupV rest vid

/-- `GET /vehicles`: `[{"id": vid, **details} for vid, details in VEHICLES.items()]`. -/
def list_vehicles (s : Store) : List Row := s.map fun r => (r.1, r.2)

/-- The local helper `match` of the search endpoint:
`term.lower() in value.lower()`. -/
def matchField (value term : String) : Bool :=
  containsSub (lowerStr value) (lowerStr term)

/-- `GET /vehicles/search`: keeps a row iff every provided (truthy) filter
matches case-insensitively as a substring; the four `continue` guards of the
Python loop are the four conjuncts. -/
def search_vehicles (s : Store)
    (make model status destination : Option String) : List Row :=
  s.filter fun r =>
    (!truthyStr make || matchField r.2.make (make.getD "")) &&
    (!truthyStr model || matchField r.2.model (model.getD "")) &&
    (!truthyStr status || matchField r.2.status (status.getD "")) &&
    (!truthyStr destination || matchField r.2.destination (destination.getD ""))

/-- `GET /vehicles/{vehicle_id}`: 404 with an error body when absent
(the 404 body is never read by the adapter, so it is a default record),
otherwise 200 with the record. -/
def get_vehicle (s : Store) (vid : String) : HttpOutcome Vehicle :=
  match lookupV s vid with
  | none => HttpOutcome.success 404 ⟨"", "", "", ""⟩
  | some v => HttpOutcome.success 200 v

/-- Store contents after `PATCH /vehicles/{vehicle_id}`:
`VEHICLES[vehicle_id]["status"] = status` mutates only the status field of
the addressed record. -/
def updateStore (s : Store) (vid st : String) : Store :=
  s.map fun r => if r.1 = vid then (r.1, { r.2 with status := st }) else r

/-- `PATCH /vehicles/{vehicle_id}`: the HTTP response
(`{"id": vehicle_id, **VEHICLES[vehicle_id]}` after mutation, or 404 when
absent) together with the store after the call. -/
def update_vehicle_status (s : Store) (vid st : String) :
    HttpOutcome Row × Store :=
  match lookupV s vid with
  | none => (HttpOutcome.success 404 ("", ⟨"", "", "", ""⟩), s)
  | some v => (HttpOutcome.success 200 (vid, { v with status := st }),
               updateStore s vid st)

end DataSource

namespace McpServer

open DataSource (lookupV)

def DATA_SOURCE_URL : String := "http://127.0.0.1:8001"

/-- Rendering of a vehicle inside `get_vehicle_details`
(`f"Vehicle {vehicle_id}: {make} {model} is currently {status} heading to {destination}."`). -/
def renderDetails (vid : String) (v : Vehicle) : String :=
  "Vehicle " ++ vid ++ ": " ++ v.make ++ " " ++ v.model ++ " is currently " ++
    v.status ++ " heading to " ++ v.destination ++ "."

/-- The not-found message of `get_vehicle_details`. -/
def renderNotFound (vid close : String) : String :=
  "Error: Vehicle " ++ vid ++ " not found. Nearby IDs: " ++ close

/-- `list_vehicles_internal`: one `GET /vehicles`; non-200 collapses to `[]`,
timeouts and transport errors propagate as exceptions to the caller. -/
def list_vehicles_internal (ol : HttpOutcome (List Row)) :
    Except PyErr (List Row) :=
  match ol with
  | HttpOutcome.success status body =>
      if status = 200 then Except.ok body else Except.ok []
  | HttpOutcome.timeout m => Except.error (PyErr.timeout m)
  | HttpOutcome.exn m => Except.error (PyErr.exn m)

/-- The `get_vehicle_details` tool. `o` is the outcome of
`GET /vehicles/{vehicle_id}`; `ol` is the outcome of the `GET /vehicles` made
by `list_vehicles_internal` in the 404 branch. The trailing `match` is the
`except httpx.TimeoutException` / `except Exception` pair. -/
def get_vehicle_details (vehicle_id : String) (o : HttpOutcome Vehicle)
    (ol : HttpOutcome (List Row)) : Except PyErr String :=
  let body : Except PyErr String :=
    match o with
    | HttpOutcome.timeout m => Except.error (PyErr.timeout m)
    | HttpOutcome.exn m => Except.error (PyErr.exn m)
    | HttpOutcome.success status data =>
      if status = 200 then
        Except.ok (renderDetails vehicle_id data)
      else if status = 404 then
        match list_vehicles_internal ol with
        | Except.error e => Except.error e
        | Except.ok vehicles =>
            Except.ok (renderNotFound vehicle_id
              (joinComma ((vehicles.take 3).map Prod.fst)))
      else
        Except.ok ("Error: Could not find details for vehicle " ++
          vehicle_id ++ ".")
  match body with
  | Except.ok s => Except.ok s
  | Except.error (PyErr.timeout _) =>
      Except.ok ("Error: Request to data source timed out for vehicle " ++
        vehicle_id ++ ". Ensure the server at " ++ DATA_SOURCE_URL ++
        " is running.")
  | Except.error (PyErr.exn m) =>
      Except.ok ("Error: Could not fetch details for vehicle " ++
        vehicle_id ++ ": " ++ m)

/-- Rendering of one line of the `list_vehicles` tool (no trailing period). -/
def renderLine (r : Row) : String :=
  "Vehicle " ++ r.1 ++ ": " ++ r.2.make ++ " " ++ r.2.model ++
    " is currently " ++ r.2.status ++ " heading to " ++ r.2.destination

/-- The `list_vehicles` tool. -/
def list_vehicles (ol : HttpOutcome (List Row)) : Except PyErr String :=
  let body : Except PyErr String :=
    match list_vehicles_internal ol with
    | Except.error e => Except.error e
    | Except.ok vehicles =>
        if vehicles.isEmpty then
          Except.ok "Error: Could not retrieve vehicle list."
        else
          Except.ok (joinLines (vehicles.map renderLine))
  match body with
  | Except.ok s => Except.ok s
  | Except.error (PyErr.timeout _) =>
      Except.ok ("Error: Request to data source timed out. Ensure the server at "
        ++ DATA_SOURCE_URL ++ " is running.")
  | Except.error (PyErr.exn m) =>
      Except.ok ("Error: Could not fetch vehicle list: " ++ m)

/-- The `params` dict built by the `search_vehicles` tool: only truthy
filter values are forwarded, in the fixed insertion order. -/
def buildParams (make model status destination : Option String) :
    List (String × String) :=
  (if truthyStr make then [("make", make.getD "")] else []) ++
  (if truthyStr model then [("model", model.getD "")] else []) ++
  (if truthyStr status then [("status", status.getD "")] else []) ++
  (if truthyStr destination then [("destination", destination.getD "")] else [])

/-- Rendering of one line of the `search_vehicles` tool (`is`, not
`is currently`, and no trailing period). -/
def renderSearchLine (r : Row) : String :=
  "Vehicle " ++ r.1 ++ ": " ++ r.2.make ++ " " ++ r.2.model ++ " is " ++
    r.2.status ++ " heading to " ++ r.2.destination

/-- The `search_vehicles` tool. `http` is the transport: it receives the
built `params` and yields the outcome of `GET /vehicles/search`. -/
def search_vehicles (make model status destination : Option String)
    (http : List (String × String) → HttpOutcome (List Row)) :
    Except PyErr String :=
  let params := buildParams make model status destination
  let body : Except PyErr String :=
    match http params with
    | HttpOutcome.timeout m => Except.error (PyErr.timeout m)
    | HttpOutcome.exn m => Except.error (PyErr.exn m)
    | HttpOutcome.success status hits =>
      if status = 200 then
        if hits.isEmpty then
          Except.ok ("No vehicles matched your criteria. " ++
            "Try relaxing one of the filters or check spelling.")
        else
          Except.ok (joinLines (hits.map renderSearchLine))
      else
        Except.ok "Error: search endpoint returned unexpected status."
  match body with
  | Except.ok s => Except.ok s
  | Except.error (PyErr.timeout _) =>
      Except.ok "Error: timeout while searching vehicles."
  | Except.error (PyErr.exn m) =>
      Except.ok ("Error during search: " ++ m)

/-- `status_counts[k] = status_counts.get(k, 0) + 1` on an insertion-ordered
dict represented as an association list. -/
def bump (m : List (String × Nat)) (k : String) : List (String × Nat) :=
  match m with
  | [] => [(k, 1)]
  | kc :: rest =>
      if kc.1 = k then (kc.1, kc.2 + 1) :: rest else kc :: bump rest k

/-- The `status_counts` dict of `inventory_summary`. -/
def statusCounts (vs : List Row) : List (String × Nat) :=
  vs.foldl (fun m v => bump m v.2.status) []

/-- The `destination_counts` dict of `inventory_summary`. -/
def destinationCounts (vs : List Row) : List (String × Nat) :=
  vs.foldl (fun m v => bump m v.2.destination) []

/-- One `f"{k}: {c}"` line of `inventory_summary`. -/
def renderCount (kc : String × Nat) : String :=
  kc.1 ++ ": " ++ toString kc.2

/-- The `inventory_summary` tool. Its only handler is `except Exception`,
which also catches timeouts (rendered through `str(e)`). -/
def inventory_summary (ol : HttpOutcome (List Row)) : Except PyErr String :=
  let body : Except PyErr String :=
    match list_vehicles_internal ol with
    | Except.error e => Except.error e
    | Except.ok vehicles =>
        if vehicles.isEmpty then Except.ok "Inventory is empty."
        else
          Except.ok ("Status counts:\n" ++
            joinLines ((statusCounts vehicles).map renderCount) ++
            "\nDestination counts:\n" ++
            joinLines ((destinationCounts vehicles).map renderCount))
  match body with
  | Except.ok s => Except.ok s
  | Except.error (PyErr.timeout m) =>
      Except.ok ("Error generating inventory summary: " ++ m)
  | Except.error (PyErr.exn m) =>
      Except.ok ("Error generating inventory summary: " ++ m)

/-- The `change_status` tool. `o` is the outcome of the PATCH; `ol` is the
outcome of the `GET /vehicles` made in the 404 branch. -/
def change_status (vehicle_id new_status : String) (o : HttpOutcome Row)
    (ol : HttpOutcome (List Row)) : Except PyErr String :=
  let body : Except PyErr String :=
    match o with
    | HttpOutcome.timeout m => Except.error (PyErr.timeout m)
    | HttpOutcome.exn m => Except.error (PyErr.exn m)
    | HttpOutcome.success status data =>
      if status = 200 then
        Except.ok ("Updated vehicle " ++ vehicle_id ++ " status to " ++
          data.2.status ++ ".")
      else if status = 404 then
        match list_vehicles_internal ol with
        | Except.error e => Except.error e
        | Except.ok vehicles =>
            Except.ok ("Error: Vehicle " ++ vehicle_id ++ " not found. " ++
              "Available IDs include " ++
              joinComma ((vehicles.take 3).map Prod.fst) ++ ".")
      else
        Except.ok ("Error: could not change status (" ++ toString status ++ ").")
  match body with
  | Except.ok s => Except.ok s
  | Except.error (PyErr.timeout _) =>
      Except.ok "Error: timeout while attempting to change status."
  | Except.error (PyErr.exn m) =>
      Except.ok ("Error updating status: " ++ m)

/-- `isOk` discriminator for adapter results ("completed with a string"). -/
def isOkE (r : Except PyErr String) : Bool :=
  match r with
  | Except.ok _ => true
  | Except.error _ => false

/-- Healthy-transport composition: the query-parameter view the search
endpoint receives from a params dict (absent key ↦ `None`). -/
def paramOf (params : List (String × String)) (k : String) : Option String :=
  (params.find? fun kv => kv.1 = k).map Prod.snd

/-- Healthy-transport composition of the search endpoint behind HTTP. -/
def serveSearch (s : Store) (params : List (String × String)) :
    HttpOutcome (List Row) :=
  HttpOutcome.success 200 (DataSource.search_vehicles s
    (paramOf params "make") (paramOf params "model")
    (paramOf params "status") (paramOf params "destination"))

/-- `get_vehicle_details` against a live store and transport. -/
def run_get (s : Store) (vid : String) : Except PyErr String :=
  get_vehicle_details vid (DataSource.get_vehicle s vid)
    (HttpOutcome.success 200 (DataSource.list_vehicles s))

/-- `change_status` against a live store and transport: result string plus
the store after the call. -/
def run_change_status (s : Store) (vid st : String) :
    Except PyErr String × Store :=
  let r := DataSource.update_vehicle_status s vid st
  (change_status vid st r.1 (HttpOutcome.success 200
    (DataSource.list_vehicles r.2)), r.2)

/-- `search_vehicles` against a live store and transport. -/
def run_search (s : Store) (make model status destination : Option String) :
    Except PyErr String :=
  search_vehicles make model status destination (serveSearch s)

end McpServer

namespace McpClient

/-! JSON-like schema values: strings/numbers/booleans are opaque atoms,
objects are ordered key-value lists, arrays are item lists.  Mutual
inductives keep all recursion structural. -/
mutual

inductive Schema where
  | atom : String → Schema
  | obj : Fields → Schema
  | arr : Items → Schema
deriving DecidableEq, Repr

inductive Fields where
  | nil : Fields
  | cons : String → Schema → Fields → Fields
deriving DecidableEq, Repr

inductive Items where
  | nil : Items
  | cons : Schema → Items → Items
deriving DecidableEq, Repr

end

/-! `clean_schema` of `mcp_client.py`.  A dict is rebuilt without its
`additionalProperties` keys and with each remaining value transformed:
dict values are cleaned recursively, list values have exactly their dict
items cleaned (`clean_schema(item) if isinstance(item, dict) else item`),
everything else is returned unchanged — including a non-dict at top level.
Dropping a key before or after transforming the other entries is
equivalent, so the dict comprehension plus in-place loop of the source is
embedded as one entry-by-entry pass. -/
mutual

def clean_schema : Schema → Schema
  | Schema.obj fs => Schema.obj (cleanFields fs)
  | s => s

def cleanFields : Fields → Fields
  | Fields.nil => Fields.nil
  | Fields.cons k v rest =>
      if k = "additionalProperties" then cleanFields rest
      else Fields.cons k (cleanValue v) (cleanFields rest)

def cleanValue : Schema → Schema
  | Schema.obj fs => Schema.obj (cleanFields fs)
  | Schema.arr its => Schema.arr (cleanItems its)
  | s => s

def cleanItems : Items → Items
  | Items.nil => Items.nil
  | Items.cons (Schema.obj fs) rest =>
      Items.cons (Schema.obj (cleanFields fs)) (cleanItems rest)
  | Items.cons it rest => Items.cons it (cleanItems rest)

end

/-! Modelled from the spec: the full recursive strip — "any schema dialect
feature not understood by the consuming model provider must be stripped
recursively from nested structures (objects and lists) before transmission,
preserving all other schema fields unchanged."  This is the spec-side
definition `clean_schema` is compared against. -/
mutual

def stripAP : Schema → Schema
  | Schema.atom a => Schema.atom a
  | Schema.obj fs => Schema.obj (stripFields fs)
  | Schema.arr its => Schema.arr (stripItems its)

def stripFields : Fields → Fields
  | Fields.nil => Fields.nil
  | Fields.cons k v rest =>
      if k = "additionalProperties" then stripFields rest
      else Fields.cons k (stripAP v) (stripFields rest)

def stripItems : Items → Items
  | Items.nil => Items.nil
  | Items.cons it rest => Items.cons (stripAP it) (stripItems rest)

end

/-! Whether an `additionalProperties` key occurs anywhere in a schema. -/
mutual

def hasAP : Schema → Bool
  | Schema.atom _ => false
  | Schema.obj fs => hasAPFields fs
  | Schema.arr its => hasAPItems its

def hasAPFields : Fields → Bool
  | Fields.nil => false
  | Fields.cons k v rest =>
      k = "additionalProperties" || hasAP v || hasAPFields rest

def hasAPItems : Items → Bool
  | Items.nil => false
  | Items.cons it rest => hasAP it || hasAPItems rest

end

/-! Whether a schema contains no list nested directly inside a list
(the fragment on which `clean_schema` agrees with the full strip). -/
mutual

def noListInList : Schema → Bool
  | Schema.atom _ => true
  | Schema.obj fs => noListInListFields fs
  | Schema.arr its => noListInListItems its

def noListInListFields : Fields → Bool
  | Fields.nil => true
  | Fields.cons _ v rest => noListInList v && noListInListFields rest

def noListInListItems : Items → Bool
  | Items.nil => true
  | Items.cons (Schema.arr _) _ => false
  | Items.cons it rest => noListInList it && noListInListItems rest

end

/-- A Gemini function call: a tool name and an opaque argument mapping. -/
structure FunctionCall where
  name : String
  args : String
deriving DecidableEq, Repr

/-- One content part of a model turn.  Per the provider's types a part
always carries a `text` attribute, possibly `None`, and possibly a
`function_call`. -/
structure Part where
  function_call : Option FunctionCall
  text : Option String
deriving DecidableEq, Repr

/-- A role-tagged content block. -/
structure Content where
  role : String
  parts : List Part
deriving DecidableEq, Repr

/-- A response candidate. -/
structure Candidate where
  content : Content
deriving DecidableEq, Repr

/-- A `generate_content` response: its candidate list and the `.text`
convenience accessor. -/
structure GenResponse where
  candidates : List Candidate
  text : Option String
deriving DecidableEq, Repr

/-- One turn of `conversation_contents`: the seeded user turn, an appended
model turn (`response.candidates[0].content`), or an appended tool-result
turn (`types.Content(role="tool", ...)` carrying the tool name and the
returned text). -/
inductive Turn where
  | user : String → Turn
  | model : Content → Turn
  | tool : String → String → Turn
deriving DecidableEq, Repr

/-- Externally observable events of the driver: a `generate_content` call,
or the resolution of one requested tool call. -/
inductive Ev where
  | query : Ev
  | resolve : String → Ev
deriving DecidableEq, Repr

/-- How a run of `main` ends: with a final answer (`final_answer`, which is
Python `None` when the model turn bears no text), with the early
`print("API call failed"); return` of the first request, with an uncaught
`IndexError` (empty candidate list), or — a modelling artifact — with the
response oracle exhausted while the loop still wanted to re-query. -/
inductive Outcome where
  | finished : Option String → Outcome
  | earlyFail : String → Outcome
  | crashed : Outcome
  | outOfOracle : Outcome
deriving DecidableEq, Repr

/-- Boolean discriminator: did the run end with a `final_answer`? -/
def isFinished : Outcome → Bool
  | Outcome.finished _ => true
  | _ => false

/-- Python truthiness of `response.text`. -/
def truthy : Option String → Bool
  | none => false
  | some s => !s.isEmpty

/-- `parts and parts[0].function_call`: the function call of the first
part, if any. -/
def fcHead : List Part → Option FunctionCall
  | [] => none
  | p :: _ => p.function_call

/-- Lines 107-113 of `mcp_client.py`: the final answer extracted from a
response that carried no function call.  `getattr(part, 'text', str(part))`
is the part's `text` attribute, which always exists on the provider's
`Part` type. -/
def computeFinal (resp : GenResponse) : Option String :=
  if truthy resp.text then resp.text
  else
    match resp.candidates with
    | c :: _ =>
      match c.content.parts with
      | p :: _ => p.text
      | [] => some "(no answer received)"
    | [] => some "(no answer received)"

/-- Result of one `generate_content` call: a response, or a raised
exception with its message. -/
abbrev ApiResult := Except String GenResponse

/-- The `while True` loop of `main` (lines 78-114).  `tools` resolves a
requested call to the adapter's returned text (`result.content[0].text`);
`oracle` supplies the result of each subsequent `generate_content` call in
order; `resp` is the response currently under inspection, already appended
to the conversation.  Returns the conversation turns from the current model
turn onward, the events from the current iteration onward, and the outcome. -/
def runLoop (tools : String → String → String) :
    List ApiResult → GenResponse → List Turn × List Ev × Outcome
  | [], resp =>
    match resp.candidates with
    | [] => ([], [], Outcome.crashed)
    | cand :: _ =>
      match fcHead cand.content.parts with
      | some fc =>
          ([Turn.model cand.content, Turn.tool fc.name (tools fc.name fc.args)],
           [Ev.resolve fc.name], Outcome.outOfOracle)
      | none => ([Turn.model cand.content], [],
                 Outcome.finished (computeFinal resp))
  | apiRes :: rest, resp =>
    match resp.candidates with
    | [] => ([], [], Outcome.crashed)
    | cand :: _ =>
      match fcHead cand.content.parts with
      | some fc =>
        let toolText := tools fc.name fc.args
        match apiRes with
        | Except.error e =>
            ([Turn.model cand.content, Turn.tool fc.name toolText],
             [Ev.resolve fc.name, Ev.query],
             Outcome.finished (some ("(failed due to API error: " ++ e ++ ")")))
        | Except.ok resp2 =>
            let res := runLoop tools rest resp2
            (Turn.model cand.content :: Turn.tool fc.name toolText :: res.1,
             Ev.resolve fc.name :: Ev.query :: res.2.1,
             res.2.2)
      | none => ([Turn.model cand.content], [],
                 Outcome.finished (computeFinal resp))

/-- The conversation log, the event trace and the outcome of one run. -/
structure RunResult where
  conv : List Turn
  trace : List Ev
  outcome : Outcome
deriving DecidableEq, Repr

/-- `main` from the first `generate_content` call onward: the first oracle
entry answers the initial request (line 62); on its failure the driver
prints a diagnostic and returns with no final answer (lines 67-69);
otherwise the conversation is seeded with the user turn and the first model
turn and the loop runs. -/
def mainDrive (tools : String → String → String) (q : String)
    (oracle : List ApiResult) : RunResult :=
  match oracle with
  | [] => ⟨[], [], Outcome.outOfOracle⟩
  | Except.error e :: _ => ⟨[], [Ev.query], Outcome.earlyFail e⟩
  | Except.ok resp :: rest =>
    let res := runLoop tools rest resp
    ⟨Turn.user q :: res.1, Ev.query :: res.2.1, res.2.2⟩

/-- Shape of a finished request loop: a model turn with no function call
ends it; otherwise each model turn carrying a function call is followed by
exactly one tool-result turn holding that call's resolved text, and — unless
the re-query failed — by the next model turn; in the trace each resolution
sits between the two adjacent queries. -/
inductive LoopShape (tools : String → String → String) :
    List Turn → List Ev → Prop where
  | done : ∀ c, fcHead c.parts = none → LoopShape tools [Turn.model c] []
  | apiFail : ∀ c fc, fcHead c.parts = some fc →
      LoopShape tools
        [Turn.model c, Turn.tool fc.name (tools fc.name fc.args)]
        [Ev.resolve fc.name, Ev.query]
  | step : ∀ c fc rest tr, fcHead c.parts = some fc →
      LoopShape tools rest tr →
      LoopShape tools
        (Turn.model c :: Turn.tool fc.name (tools fc.name fc.args) :: rest)
        (Ev.resolve fc.name :: Ev.query :: tr)

end McpClient

/-- Total of an insertion-ordered counts dict. -/
def sumCounts (m : List (String × Nat)) : Nat := (m.map Prod.snd).sum

/-! Concrete sample values used to instantiate theorems with hypotheses. -/

/-- A sample tool resolver (any `String → String → String` works for the
driver theorems). -/
def tools0 : String → String → String :=
  fun n a => "result of " ++ n ++ " " ++ a

/-- A model turn that answers in plain text. -/
def contentHi : McpClient.Content :=
  ⟨"model", [⟨none, some "Vehicle 102 is Shipped."⟩]⟩

/-- A response whose only candidate is `contentHi`. -/
def respHi : McpClient.GenResponse :=
  ⟨[⟨contentHi⟩], some "Vehicle 102 is Shipped."⟩

/-- A model turn requesting the tool `get_vehicle_details`. -/
def contentFC : McpClient.Content :=
  ⟨"model", [⟨some ⟨"get_vehicle_details", "vehicle_id=102"⟩, none⟩]⟩

/-- A response whose only candidate carries a function call. -/
def respFC : McpClient.GenResponse := ⟨[⟨contentFC⟩], none⟩

/-- A final model turn with no function call, no direct text and an empty
parts list. -/
def respNoParts : McpClient.GenResponse := ⟨[⟨⟨"model", []⟩⟩], none⟩

/-- A final model turn with no function call, no direct text, and one part
bearing no text. -/
def respBlankPart : McpClient.GenResponse := ⟨[⟨⟨"model", [⟨none, none⟩]⟩⟩], none⟩

/-- A schema with `additionalProperties` buried inside a list nested
directly inside a list. -/
def badSchema : McpClient.Schema :=
  McpClient.Schema.obj (McpClient.Fields.cons "a"
    (McpClient.Schema.arr (McpClient.Items.cons
      (McpClient.Schema.arr (McpClient.Items.cons
        (McpClient.Schema.obj (McpClient.Fields.cons "additionalProperties"
          (McpClient.Schema.atom "false") McpClient.Fields.nil))
        McpClient.Items.nil))
      McpClient.Items.nil))
    McpClient.Fields.nil)

/-- A realistic tool-parameter schema: an object with nested objects and a
list of object items, `additionalProperties` at two depths, and no list
directly inside a list. -/
def goodFields : McpClient.Fields :=
  McpClient.Fields.cons "type" (McpClient.Schema.atom "object")
    (McpClient.Fields.cons "additionalProperties" (McpClient.Schema.atom "false")
      (McpClient.Fields.cons "properties"
        (McpClient.Schema.obj (McpClient.Fields.cons "vehicle_id"
          (McpClient.Schema.obj (McpClient.Fields.cons "type"
            (McpClient.Schema.atom "string")
            (McpClient.Fields.cons "additionalProperties"
              (McpClient.Schema.atom "false") McpClient.Fields.nil)))
          McpClient.Fields.nil))
        (McpClient.Fields.cons "anyOf"
          (McpClient.Schema.arr (McpClient.Items.cons
            (McpClient.Schema.obj (McpClient.Fields.cons "additionalProperties"
              (McpClient.Schema.atom "false") McpClient.Fields.nil))
            McpClient.Items.nil))
          McpClient.Fields.nil)))

/-! String-search infrastructure lemmas. -/

theorem containsSub_spec (h n : String) :
    containsSub h n = true ↔ n.data <:+: h.data := by
  constructor
  · intro hc
    simp only [containsSub, List.any_eq_true, List.mem_range] at hc
    obtain ⟨i, _, hp⟩ := hc
    exact List.infix_iff_prefix_suffix.mpr
      ⟨h.data.drop i, List.isPrefixOf_iff_prefix.mp hp, List.drop_suffix i h.data⟩
  · intro hinf
    obtain ⟨s, t, hst⟩ := hinf
    simp only [containsSub, List.any_eq_true, List.mem_range]
    refine ⟨s.length, ?_, ?_⟩
    · rw [← hst]
      simp only [List.length_append]
      omega
    · rw [← hst, List.append_assoc, List.drop_left]
      exact List.isPrefixOf_iff_prefix.mpr (List.prefix_append n.data t)

theorem containsSub_intro (h n : String) (pre post : List Char)
    (he : h.data = pre ++ n.data ++ post) : containsSub h n = true := by
  rw [containsSub_spec, he]
  exact List.infix_append pre n.data post

theorem containsSub_sub_append (a b c n : String)
    (hb : containsSub b n = true) : containsSub (a ++ b ++ c) n = true := by
  rw [containsSub_spec] at hb ⊢
  refine hb.trans ?_
  rw [String.data_append, String.data_append]
  exact List.infix_append a.data b.data c.data

theorem containsSub_empty_needle (h : String) : containsSub h "" = true := by
  rw [containsSub_spec]
  exact List.nil_infix

theorem lowerStr_empty : lowerStr "" = "" := rfl

/-! Search-endpoint lemmas. -/

theorem guard_some (v T : String) :
    (!truthyStr (some T) || DataSource.matchField v ((some T).getD ""))
      = DataSource.matchField v T := by
  by_cases h : T = ""
  · subst h
    simp [truthyStr, DataSource.matchField, lowerStr_empty, containsSub_empty_needle]
  · have he : T.isEmpty = false := by
      cases he : T.isEmpty
      · rfl
      · exact absurd ((String.isEmpty_iff T).mp he) h
    simp [truthyStr, he]

theorem guard_none (v : String) :
    (!truthyStr none || DataSource.matchField v ((none : Option String).getD ""))
      = true := by
  simp [truthyStr]

theorem mem_search_iff (s : Store) (mk md st de : Option String) (r : Row) :
    r ∈ DataSource.search_vehicles s mk md st de ↔
      r ∈ s ∧
      (!truthyStr mk || DataSource.matchField r.2.make (mk.getD "")) = true ∧
      (!truthyStr md || DataSource.matchField r.2.model (md.getD "")) = true ∧
      (!truthyStr st || DataSource.matchField r.2.status (st.getD "")) = true ∧
      (!truthyStr de || DataSource.matchField r.2.destination (de.getD "")) = true := by
  simp [DataSource.search_vehicles, List.mem_filter, and_assoc]

/-- C3: for every record and every provided filter term, the store's search
matches the record iff the lowercased term is a substring of the lowercased
corresponding field, and a multi-filter search is exactly the intersection
of the single-filter searches. -/
theorem C3_search_semantics (s : Store) (T : String) (r : Row)
    (mk md st de : Option String) :
    (r ∈ DataSource.search_vehicles s (some T) none none none ↔
       r ∈ s ∧ containsSub (lowerStr r.2.make) (lowerStr T) = true) ∧
    (r ∈ DataSource.search_vehicles s none (some T) none none ↔
       r ∈ s ∧ containsSub (lowerStr r.2.model) (lowerStr T) = true) ∧
    (r ∈ DataSource.search_vehicles s none none (some T) none ↔
       r ∈ s ∧ containsSub (lowerStr r.2.status) (lowerStr T) = true) ∧
    (r ∈ DataSource.search_vehicles s none none none (some T) ↔
       r ∈ s ∧ containsSub (lowerStr r.2.destination) (lowerStr T) = true) ∧
    (r ∈ DataSource.search_vehicles s mk md st de ↔
       (r ∈ DataSource.search_vehicles s mk none none none ∧
        r ∈ DataSource.search_vehicles s none md none none ∧
        r ∈ DataSource.search_vehicles s none none st none ∧
        r ∈ DataSource.search_vehicles s none none none de)) := by
  refine ⟨?_, ?_, ?_, ?_, ?_⟩
  · rw [mem_search_iff]
    simp only [guard_some, guard_none]
    simp [DataSource.matchField]
  · rw [mem_search_iff]
    simp only [guard_some, guard_none]
    simp [DataSource.matchField]
  · rw [mem_search_iff]
    simp only [guard_some, guard_none]
    simp [DataSource.matchField]
  · rw [mem_search_iff]
    simp only [guard_some, guard_none]
    simp [DataSource.matchField]
  · simp only [mem_search_iff, guard_none, and_true, true_and]
    tauto

/-- C10: an empty-string filter value is the same as an absent filter, at
the store endpoint, in the params dict the adapter builds, and through the
composed adapter search. -/
theorem C10_empty_filter_noop (s : Store) (mk md st de : Option String) :
    (DataSource.search_vehicles s (some "") md st de
       = DataSource.search_vehicles s none md st de) ∧
    (DataSource.search_vehicles s mk (some "") st de
       = DataSource.search_vehicles s mk none st de) ∧
    (DataSource.search_vehicles s mk md (some "") de
       = DataSource.search_vehicles s mk md none de) ∧
    (DataSource.search_vehicles s mk md st (some "")
       = DataSource.search_vehicles s mk md st none) ∧
    (McpServer.buildParams (some "") md st de
       = McpServer.buildParams none md st de) ∧
    (McpServer.buildParams mk (some "") st de
       = McpServer.buildParams mk none st de) ∧
    (McpServer.buildParams mk md (some "") de
       = McpServer.buildParams mk md none de) ∧
    (McpServer.buildParams mk md st (some "")
       = McpServer.buildParams mk md st none) ∧
    (McpServer.run_search s (some "") md st de
       = McpServer.run_search s none md st de) ∧
    (McpServer.run_search s mk (some "") st de
       = McpServer.run_search s mk none st de) ∧
    (McpServer.run_search s mk md (some "") de
       = McpServer.run_search s mk md none de) ∧
    (McpServer.run_search s mk md st (some "")
       = McpServer.run_search s mk md st none) := by
  have hts : truthyStr (some "") = false := rfl
  have htn : truthyStr none = false := rfl
  refine ⟨?_, ?_, ?_, ?_, ?_, ?_, ?_, ?_, ?_, ?_, ?_, ?_⟩ <;>
    simp [DataSource.search_vehicles, McpServer.buildParams, McpServer.run_search,
      McpServer.search_vehicles, hts, htn]

/-! Counting lemmas for the inventory summary. -/

theorem sumCounts_bump (m : List (String × Nat)) (k : String) :
    sumCounts (McpServer.bump m k) = sumCounts m + 1 := by
  induction m with
  | nil => simp [McpServer.bump, sumCounts]
  | cons kc rest ih =>
    by_cases hk : kc.1 = k
    · simp [McpServer.bump, hk, sumCounts]
      omega
    · simp only [McpServer.bump, hk, if_false, sumCounts, List.map_cons,
        List.sum_cons] at ih ⊢
      omega

theorem sumCounts_foldl_bump (f : Row → String) :
    ∀ (vs : List Row) (m : List (String × Nat)),
      sumCounts (vs.foldl (fun acc v => McpServer.bump acc (f v)) m)
        = sumCounts m + vs.length := by
  intro vs
  induction vs with
  | nil => intro m; simp
  | cons v rest ih =>
    intro m
    simp only [List.foldl_cons, List.length_cons, ih, sumCounts_bump]
    omega

/-- C9: the per-status counts of `inventory_summary` sum to the number of
records, and so do the per-destination counts. -/
theorem C9_inventory_summary_sums (vs : List Row) :
    sumCounts (McpServer.statusCounts vs) = vs.length ∧
    sumCounts (McpServer.destinationCounts vs) = vs.length := by
  constructor
  · have h := sumCounts_foldl_bump (fun v => v.2.status) vs []
    simpa [McpServer.statusCounts, sumCounts] using h
  · have h := sumCounts_foldl_bump (fun v => v.2.destination) vs []
    simpa [McpServer.destinationCounts, sumCounts] using h

/-- C2: every adapter operation returns a string under every input and
every backing-store outcome — success, not-found, other statuses, timeout
or transport exception — and never propagates an exception. -/
theorem C2_adapter_never_raises :
    (∀ (vid : String) (o : HttpOutcome Vehicle) (ol : HttpOutcome (List Row)),
       McpServer.isOkE (McpServer.get_vehicle_details vid o ol) = true) ∧
    (∀ ol : HttpOutcome (List Row),
       McpServer.isOkE (McpServer.list_vehicles ol) = true) ∧
    (∀ (mk md st de : Option String)
       (http : List (String × String) → HttpOutcome (List Row)),
       McpServer.isOkE (McpServer.search_vehicles mk md st de http) = true) ∧
    (∀ ol : HttpOutcome (List Row),
       McpServer.isOkE (McpServer.inventory_summary ol) = true) ∧
    (∀ (vid ns : String) (o : HttpOutcome Row) (ol : HttpOutcome (List Row)),
       McpServer.isOkE (McpServer.change_status vid ns o ol) = true) := by
  refine ⟨?_, ?_, ?_, ?_, ?_⟩
  · intro vid o ol
    cases o with
    | timeout m => rfl
    | exn m => rfl
    | success status data =>
      by_cases h200 : status = 200
      · simp [McpServer.get_vehicle_details, h200, McpServer.isOkE]
      · by_cases h404 : status = 404
        · cases ol with
          | success st2 body =>
            by_cases h2 : st2 = 200 <;>
              simp [McpServer.get_vehicle_details, McpServer.list_vehicles_internal,
                h200, h404, h2, McpServer.isOkE]
          | timeout m =>
            simp [McpServer.get_vehicle_details, McpServer.list_vehicles_internal,
              h200, h404, McpServer.isOkE]
          | exn m =>
            simp [McpServer.get_vehicle_details, McpServer.list_vehicles_internal,
              h200, h404, McpServer.isOkE]
        · simp [McpServer.get_vehicle_details, h200, h404, McpServer.isOkE]
  · intro ol
    cases ol with
    | success status body =>
      by_cases h2 : status = 200
      · by_cases hb : body.isEmpty = true <;>
          simp [McpServer.list_vehicles, McpServer.list_vehicles_internal, h2, hb,
            McpServer.isOkE]
      · simp [McpServer.list_vehicles, McpServer.list_vehicles_internal, h2,
          McpServer.isOkE]
    | timeout m => rfl
    | exn m => rfl
  · intro mk md st de http
    rcases hh : http (McpServer.buildParams mk md st de) with ⟨status, hits⟩ | m | m
    · by_cases h2 : status = 200
      · by_cases hb : hits.isEmpty = true <;>
          simp [McpServer.search_vehicles, hh, h2, hb, McpServer.isOkE]
      · simp [McpServer.search_vehicles, hh, h2, McpServer.isOkE]
    · simp [McpServer.search_vehicles, hh, McpServer.isOkE]
    · simp [McpServer.search_vehicles, hh, McpServer.isOkE]
  · intro ol
    cases ol with
    | success status body =>
      by_cases h2 : status = 200
      · by_cases hb : body.isEmpty = true <;>
          simp [McpServer.inventory_summary, McpServer.list_vehicles_internal, h2,
            hb, McpServer.isOkE]
      · simp [McpServer.inventory_summary, McpServer.list_vehicles_internal, h2,
          McpServer.isOkE]
    | timeout m => rfl
    | exn m => rfl
  · intro vid ns o ol
    cases o with
    | timeout m => rfl
    | exn m => rfl
    | success status data =>
      by_cases h200 : status = 200
      · simp [McpServer.change_status, h200, McpServer.isOkE]
      · by_cases h404 : status = 404
        · cases ol with
          | success st2 body =>
            by_cases h2 : st2 = 200 <;>
              simp [McpServer.change_status, McpServer.list_vehicles_internal,
                h200, h404, h2, McpServer.isOkE]
          | timeout m =>
            simp [McpServer.change_status, McpServer.list_vehicles_internal,
              h200, h404, McpServer.isOkE]
          | exn m =>
            simp [McpServer.change_status, McpServer.list_vehicles_internal,
              h200, h404, McpServer.isOkE]
        · simp [McpServer.change_status, h200, h404, McpServer.isOkE]

/-! Conversation-driver lemmas. -/

theorem runLoop_shape (tools : String → String → String) :
    ∀ (oracle : List McpClient.ApiResult) (resp : McpClient.GenResponse)
      (ans : Option String),
      (McpClient.runLoop tools oracle resp).2.2 = McpClient.Outcome.finished ans →
      McpClient.LoopShape tools (McpClient.runLoop tools oracle resp).1
        (McpClient.runLoop tools oracle resp).2.1 := by
  intro oracle
  induction oracle with
  | nil =>
    intro resp ans h
    cases hc : resp.candidates with
    | nil => simp [McpClient.runLoop, hc] at h
    | cons cand cs =>
      cases hfc : McpClient.fcHead cand.content.parts with
      | some fc => simp [McpClient.runLoop, hc, hfc] at h
      | none =>
        simp only [McpClient.runLoop, hc, hfc]
        exact McpClient.LoopShape.done _ hfc
  | cons apiRes rest ih =>
    intro resp ans h
    cases hc : resp.candidates with
    | nil => simp [McpClient.runLoop, hc] at h
    | cons cand cs =>
      cases hfc : McpClient.fcHead cand.content.parts with
      | none =>
        simp only [McpClient.runLoop, hc, hfc]
        exact McpClient.LoopShape.done _ hfc
      | some fc =>
        cases apiRes with
        | error e =>
          simp only [McpClient.runLoop, hc, hfc]
          exact McpClient.LoopShape.apiFail _ _ hfc
        | ok resp2 =>
          simp only [McpClient.runLoop, hc, hfc] at h ⊢
          exact McpClient.LoopShape.step _ _ _ _ hfc (ih resp2 ans h)

/-- C1: in every finished run, the conversation is exactly the user turn
followed by strictly alternating model and tool-result turns — each tool
turn holding the resolved text of the function call of the model turn just
before it — and in the event trace exactly one tool resolution happens
between any two consecutive model queries. -/
theorem C1_conversation_order (tools : String → String → String) (q : String)
    (oracle : List McpClient.ApiResult) (ans : Option String)
    (h : (McpClient.mainDrive tools q oracle).outcome
          = McpClient.Outcome.finished ans) :
    ∃ rest tr,
      (McpClient.mainDrive tools q oracle).conv = McpClient.Turn.user q :: rest ∧
      (McpClient.mainDrive tools q oracle).trace = McpClient.Ev.query :: tr ∧
      McpClient.LoopShape tools rest tr := by
  cases oracle with
  | nil => simp [McpClient.mainDrive] at h
  | cons a rest0 =>
    cases a with
    | error e => simp [McpClient.mainDrive] at h
    | ok resp =>
      refine ⟨(McpClient.runLoop tools rest0 resp).1,
        (McpClient.runLoop tools rest0 resp).2.1, rfl, rfl, ?_⟩
      exact runLoop_shape tools rest0 resp ans h

/-- C1 witness: a run whose single model turn answers in plain text. -/
theorem C1_witness :
    (McpClient.mainDrive tools0 "What is the status of vehicle 102?"
        [Except.ok respHi]).outcome
      = McpClient.Outcome.finished (some "Vehicle 102 is Shipped.") ∧
    (∃ rest tr,
      (McpClient.mainDrive tools0 "What is the status of vehicle 102?"
          [Except.ok respHi]).conv
        = McpClient.Turn.user "What is the status of vehicle 102?" :: rest ∧
      (McpClient.mainDrive tools0 "What is the status of vehicle 102?"
          [Except.ok respHi]).trace = McpClient.Ev.query :: tr ∧
      McpClient.LoopShape tools0 rest tr) :=
  ⟨rfl, C1_conversation_order tools0 "What is the status of vehicle 102?"
    [Except.ok respHi] (some "Vehicle 102 is Shipped.") rfl⟩

/-- C5 counterexample: when the first model-provider call fails, the driver
returns with no final answer at all (it prints a diagnostic and exits
before entering the loop), so the failure does not surface as a diagnostic
final-answer string. -/
theorem C5_counterexample :
    (McpClient.mainDrive tools0 "q" [Except.error "boom"]).outcome
      = McpClient.Outcome.earlyFail "boom" ∧
    McpClient.isFinished
      (McpClient.mainDrive tools0 "q" [Except.error "boom"]).outcome = false :=
  ⟨rfl, rfl⟩

/-- C5 amended: whenever a model-provider API call fails the driver
terminates immediately, consuming nothing further from the provider (the
result does not depend on the rest of the oracle) and raising no fault; a
failure during the loop surfaces as the diagnostic final answer
`(failed due to API error: ...)`, while a failure on the very first request
ends the run with a printed diagnostic and no final answer. -/
theorem C5_api_failure (tools : String → String → String) (q e : String)
    (rest : List McpClient.ApiResult) (resp : McpClient.GenResponse)
    (cand : McpClient.Candidate) (cs : List McpClient.Candidate)
    (fc : McpClient.FunctionCall)
    (hc : resp.candidates = cand :: cs)
    (hfc : McpClient.fcHead cand.content.parts = some fc) :
    McpClient.mainDrive tools q (Except.error e :: rest)
      = ⟨[], [McpClient.Ev.query], McpClient.Outcome.earlyFail e⟩ ∧
    McpClient.runLoop tools (Except.error e :: rest) resp
      = ([McpClient.Turn.model cand.content,
          McpClient.Turn.tool fc.name (tools fc.name fc.args)],
         [McpClient.Ev.resolve fc.name, McpClient.Ev.query],
         McpClient.Outcome.finished
           (some ("(failed due to API error: " ++ e ++ ")"))) := by
  constructor
  · rfl
  · simp [McpClient.runLoop, hc, hfc]

/-- C5 witness: the amended behaviour at a concrete failing run. -/
theorem C5_witness :
    respFC.candidates = ⟨contentFC⟩ :: [] ∧
    McpClient.fcHead contentFC.parts
      = some ⟨"get_vehicle_details", "vehicle_id=102"⟩ ∧
    (McpClient.mainDrive tools0 "q" [Except.error "boom"]
       = ⟨[], [McpClient.Ev.query], McpClient.Outcome.earlyFail "boom"⟩ ∧
     McpClient.runLoop tools0 [Except.error "boom"] respFC
       = ([McpClient.Turn.model contentFC,
           McpClient.Turn.tool "get_vehicle_details"
             (tools0 "get_vehicle_details" "vehicle_id=102")],
          [McpClient.Ev.resolve "get_vehicle_details", McpClient.Ev.query],
          McpClient.Outcome.finished
            (some ("(failed due to API error: " ++ "boom" ++ ")")))) :=
  ⟨rfl, rfl, C5_api_failure tools0 "q" "boom" [] respFC ⟨contentFC⟩ []
    ⟨"get_vehicle_details", "vehicle_id=102"⟩ rfl rfl⟩

/-- C6 counterexample: a final model turn with no function call, no direct
text, and one part bearing no text does not produce the placeholder — the
final answer is the part's absent text (Python `None`). -/
theorem C6_counterexample :
    (McpClient.mainDrive tools0 "q" [Except.ok respBlankPart]).outcome
      = McpClient.Outcome.finished none ∧
    McpClient.Outcome.finished (none : Option String)
      ≠ McpClient.Outcome.finished (some "(no answer received)") :=
  ⟨rfl, by decide⟩

/-- C6 amended: the fixed placeholder `(no answer received)` is the final
answer exactly when the closing model turn has no function call, no truthy
direct text, and an empty content-part list; the driver does not fail. -/
theorem C6_placeholder (tools : String → String → String) (q : String)
    (rest : List McpClient.ApiResult) (resp : McpClient.GenResponse)
    (cand : McpClient.Candidate) (cs : List McpClient.Candidate)
    (hc : resp.candidates = cand :: cs)
    (hp : cand.content.parts = [])
    (ht : McpClient.truthy resp.text = false) :
    McpClient.mainDrive tools q (Except.ok resp :: rest)
      = ⟨[McpClient.Turn.user q, McpClient.Turn.model cand.content],
         [McpClient.Ev.query],
         McpClient.Outcome.finished (some "(no answer received)")⟩ := by
  have hfc : McpClient.fcHead cand.content.parts = none := by
    rw [hp]; rfl
  have hfin : McpClient.computeFinal resp = some "(no answer received)" := by
    simp [McpClient.computeFinal, ht, hc, hp]
  cases rest with
  | nil => simp [McpClient.mainDrive, McpClient.runLoop, hc, hfc, hfin]
  | cons a rest2 => simp [McpClient.mainDrive, McpClient.runLoop, hc, hfc, hfin]

/-- C6 witness: the amended behaviour at a concrete part-free final turn. -/
theorem C6_witness :
    respNoParts.candidates = ⟨⟨"model", []⟩⟩ :: [] ∧
    (⟨⟨"model", []⟩⟩ : McpClient.Candidate).content.parts = [] ∧
    McpClient.truthy respNoParts.text = false ∧
    McpClient.mainDrive tools0 "q" [Except.ok respNoParts]
      = ⟨[McpClient.Turn.user "q",
          McpClient.Turn.model (⟨⟨"model", []⟩⟩ : McpClient.Candidate).content],
         [McpClient.Ev.query],
         McpClient.Outcome.finished (some "(no answer received)")⟩ :=
  ⟨rfl, rfl, rfl,
    C6_placeholder tools0 "q" [] respNoParts ⟨⟨"model", []⟩⟩ [] rfl rfl rfl⟩

/-! Schema-sanitizer lemmas. -/

mutual

theorem cleanValue_eq_strip :
    ∀ s : McpClient.Schema, McpClient.noListInList s = true →
      McpClient.cleanValue s = McpClient.stripAP s
  | McpClient.Schema.atom _, _ => rfl
  | McpClient.Schema.obj fs, h => by
      simp only [McpClient.cleanValue, McpClient.stripAP]
      exact congrArg McpClient.Schema.obj (cleanFields_eq_strip fs h)
  | McpClient.Schema.arr its, h => by
      simp only [McpClient.cleanValue, McpClient.stripAP]
      exact congrArg McpClient.Schema.arr (cleanItems_eq_strip its h)

theorem cleanFields_eq_strip :
    ∀ fs : McpClient.Fields, McpClient.noListInListFields fs = true →
      McpClient.cleanFields fs = McpClient.stripFields fs
  | McpClient.Fields.nil, _ => rfl
  | McpClient.Fields.cons k v rest, h => by
      have hv : McpClient.noListInList v = true := by
        simp only [McpClient.noListInListFields, Bool.and_eq_true] at h
        exact h.1
      have hr : McpClient.noListInListFields rest = true := by
        simp only [McpClient.noListInListFields, Bool.and_eq_true] at h
        exact h.2
      by_cases hk : k = "additionalProperties"
      · simp only [McpClient.cleanFields, McpClient.stripFields, hk, if_true]
        exact cleanFields_eq_strip rest hr
      · simp only [McpClient.cleanFields, McpClient.stripFields, hk, if_false]
        rw [cleanValue_eq_strip v hv, cleanFields_eq_strip rest hr]

theorem cleanItems_eq_strip :
    ∀ its : McpClient.Items, McpClient.noListInListItems its = true →
      McpClient.cleanItems its = McpClient.stripItems its
  | McpClient.Items.nil, _ => rfl
  | McpClient.Items.cons it rest, h => by
      cases it with
      | atom a =>
        have hr : McpClient.noListInListItems rest = true := by
          simp only [McpClient.noListInListItems, McpClient.noListInList,
            Bool.and_eq_true] at h
          exact h.2
        simp only [McpClient.cleanItems, McpClient.stripItems, McpClient.stripAP]
        rw [cleanItems_eq_strip rest hr]
      | obj fs =>
        have hf : McpClient.noListInListFields fs = true := by
          simp only [McpClient.noListInListItems, McpClient.noListInList,
            Bool.and_eq_true] at h
          exact h.1
        have hr : McpClient.noListInListItems rest = true := by
          simp only [McpClient.noListInListItems, McpClient.noListInList,
            Bool.and_eq_true] at h
          exact h.2
        simp only [McpClient.cleanItems, McpClient.stripItems, McpClient.stripAP]
        rw [cleanFields_eq_strip fs hf, cleanItems_eq_strip rest hr]
      | arr its2 => simp [McpClient.noListInListItems] at h

end

mutual

theorem hasAP_stripAP :
    ∀ s : McpClient.Schema, McpClient.hasAP (McpClient.stripAP s) = false
  | McpClient.Schema.atom _ => rfl
  | McpClient.Schema.obj fs => by
      simp only [McpClient.stripAP, McpClient.hasAP]
      exact hasAPFields_stripFields fs
  | McpClient.Schema.arr its => by
      simp only [McpClient.stripAP, McpClient.hasAP]
      exact hasAPItems_stripItems its

theorem hasAPFields_stripFields :
    ∀ fs : McpClient.Fields,
      McpClient.hasAPFields (McpClient.stripFields fs) = false
  | McpClient.Fields.nil => rfl
  | McpClient.Fields.cons k v rest => by
      by_cases hk : k = "additionalProperties"
      · simp only [McpClient.stripFields, hk, if_true]
        exact hasAPFields_stripFields rest
      · simp only [McpClient.stripFields, hk, if_false, McpClient.hasAPFields]
        simp [hk, hasAP_stripAP v, hasAPFields_stripFields rest]

theorem hasAPItems_stripItems :
    ∀ its : McpClient.Items,
      McpClient.hasAPItems (McpClient.stripItems its) = false
  | McpClient.Items.nil => rfl
  | McpClient.Items.cons it rest => by
      simp only [McpClient.stripItems, McpClient.hasAPItems]
      simp [hasAP_stripAP it, hasAPItems_stripItems rest]

end

/-- C4 counterexample: on a schema holding `additionalProperties` inside a
list nested directly inside a list, `clean_schema` leaves the key in place. -/
theorem C4_counterexample :
    McpClient.hasAP badSchema = true ∧
    McpClient.clean_schema badSchema = badSchema ∧
    McpClient.hasAP (McpClient.clean_schema badSchema) = true :=
  ⟨rfl, rfl, rfl⟩

/-- C4 amended: for a top-level mapping containing no list nested directly
inside a list, `clean_schema` removes every occurrence of
`additionalProperties` at every depth and preserves everything else — it
coincides with the full recursive strip; occurrences inside a list nested
directly inside a list (and inside a non-mapping top level) are returned
unchanged. -/
theorem C4_clean_schema (fs : McpClient.Fields)
    (h : McpClient.noListInListFields fs = true) :
    McpClient.clean_schema (McpClient.Schema.obj fs)
      = McpClient.stripAP (McpClient.Schema.obj fs) ∧
    McpClient.hasAP (McpClient.clean_schema (McpClient.Schema.obj fs)) = false := by
  have he : McpClient.cleanFields fs = McpClient.stripFields fs :=
    cleanFields_eq_strip fs h
  constructor
  · simp only [McpClient.clean_schema, McpClient.stripAP]
    exact congrArg McpClient.Schema.obj he
  · simp only [McpClient.clean_schema, McpClient.hasAP, he]
    exact hasAPFields_stripFields fs

/-- C4 witness: the amended statement on a realistic nested tool schema. -/
theorem C4_witness :
    McpClient.noListInListFields goodFields = true ∧
    (McpClient.clean_schema (McpClient.Schema.obj goodFields)
       = McpClient.stripAP (McpClient.Schema.obj goodFields) ∧
     McpClient.hasAP (McpClient.clean_schema (McpClient.Schema.obj goodFields))
       = false) :=
  ⟨rfl, C4_clean_schema goodFields rfl⟩

/-! Store-update lemmas. -/

theorem lookupV_updateStore_self (s : Store) (vid st : String) (v : Vehicle)
    (h : DataSource.lookupV s vid = some v) :
    DataSource.lookupV (DataSource.updateStore s vid st) vid
      = some { v with status := st } := by
  induction s with
  | nil => simp [DataSource.lookupV] at h
  | cons r rest ih =>
    by_cases hr : r.1 = vid
    · simp only [DataSource.lookupV, hr, if_true] at h
      cases h
      simp [DataSource.updateStore, DataSource.lookupV, hr]
    · simp only [DataSource.lookupV, hr, if_false] at h
      simp only [DataSource.updateStore, List.map_cons, hr, if_false]
      simp only [DataSource.lookupV, hr, if_false]
      exact ih h

theorem lookupV_updateStore_other (s : Store) (vid st w : String)
    (hw : w ≠ vid) :
    DataSource.lookupV (DataSource.updateStore s vid st) w
      = DataSource.lookupV s w := by
  induction s with
  | nil => rfl
  | cons r rest ih =>
    by_cases hr : r.1 = vid
    · have hvw : vid ≠ w := Ne.symm hw
      simp only [DataSource.updateStore] at ih
      simp [DataSource.updateStore, DataSource.lookupV, hr, hvw, ih]
    · by_cases hrw : r.1 = w
      · simp [DataSource.updateStore, DataSource.lookupV, hr, hrw, hw]
      · simp only [DataSource.updateStore] at ih
        simp [DataSource.updateStore, DataSource.lookupV, hr, hrw, ih]

theorem updateStore_keys (s : Store) (vid st : String) :
    (DataSource.updateStore s vid st).map Prod.fst = s.map Prod.fst := by
  induction s with
  | nil => rfl
  | cons r rest ih =>
    by_cases hr : r.1 = vid <;>
      simp [DataSource.updateStore, hr, ih] at ih ⊢ <;> exact ih

theorem containsSub_renderDetails_status (vid : String) (v : Vehicle) :
    containsSub (McpServer.renderDetails vid v) v.status = true := by
  apply containsSub_intro _ _
    (("Vehicle " ++ vid ++ ": " ++ v.make ++ " " ++ v.model ++
      " is currently ").data)
    ((" heading to " ++ v.destination ++ ".").data)
  simp [McpServer.renderDetails, String.data_append, List.append_assoc]

/-- C7: updating the status of an existing vehicle changes only that
record's status field — its other fields, every other record, and the key
sequence are untouched — the adapter reports the update, and a subsequent
`get_vehicle_details` for that id renders the record with the new status
(a report that contains the new status as a substring). -/
theorem C7_change_status_frame (s : Store) (vid st2 : String) (v : Vehicle)
    (h : DataSource.lookupV s vid = some v) :
    McpServer.run_change_status s vid st2
      = (Except.ok ("Updated vehicle " ++ vid ++ " status to " ++ st2 ++ "."),
         DataSource.updateStore s vid st2) ∧
    DataSource.lookupV (DataSource.updateStore s vid st2) vid
      = some ⟨v.make, v.model, st2, v.destination⟩ ∧
    (∀ w, w ≠ vid →
      DataSource.lookupV (DataSource.updateStore s vid st2) w
        = DataSource.lookupV s w) ∧
    (DataSource.updateStore s vid st2).map Prod.fst = s.map Prod.fst ∧
    McpServer.run_get (DataSource.updateStore s vid st2) vid
      = Except.ok (McpServer.renderDetails vid
          ⟨v.make, v.model, st2, v.destination⟩) ∧
    containsSub (McpServer.renderDetails vid ⟨v.make, v.model, st2, v.destination⟩)
      st2 = true := by
  have hself := lookupV_updateStore_self s vid st2 v h
  have hv2 : ({ v with status := st2 } : Vehicle)
      = ⟨v.make, v.model, st2, v.destination⟩ := rfl
  refine ⟨?_, hv2 ▸ hself, fun w hw => lookupV_updateStore_other s vid st2 w hw,
    updateStore_keys s vid st2, ?_, ?_⟩
  · simp [McpServer.run_change_status, DataSource.update_vehicle_status, h,
      McpServer.change_status]
  · simp [McpServer.run_get, DataSource.get_vehicle, hself,
      McpServer.get_vehicle_details, hv2]
  · have := containsSub_renderDetails_status vid ⟨v.make, v.model, st2, v.destination⟩
    simpa using this

/-- C7 witness: changing vehicle 102 from Shipped to In Port. -/
theorem C7_witness :
    DataSource.lookupV DataSource.VEHICLES "102"
      = some ⟨"Honda", "Fit", "Shipped", "Kandy"⟩ ∧
    (McpServer.run_change_status DataSource.VEHICLES "102" "In Port"
       = (Except.ok ("Updated vehicle " ++ "102" ++ " status to " ++
            "In Port" ++ "."),
          DataSource.updateStore DataSource.VEHICLES "102" "In Port") ∧
     DataSource.lookupV
        (DataSource.updateStore DataSource.VEHICLES "102" "In Port") "102"
       = some ⟨"Honda", "Fit", "In Port", "Kandy"⟩ ∧
     (∀ w, w ≠ "102" →
       DataSource.lookupV
           (DataSource.updateStore DataSource.VEHICLES "102" "In Port") w
         = DataSource.lookupV DataSource.VEHICLES w) ∧
     (DataSource.updateStore DataSource.VEHICLES "102" "In Port").map Prod.fst
       = DataSource.VEHICLES.map Prod.fst ∧
     McpServer.run_get
         (DataSource.updateStore DataSource.VEHICLES "102" "In Port") "102"
       = Except.ok (McpServer.renderDetails "102"
           ⟨"Honda", "Fit", "In Port", "Kandy"⟩) ∧
     containsSub (McpServer.renderDetails "102"
         ⟨"Honda", "Fit", "In Port", "Kandy"⟩) "In Port" = true) :=
  ⟨rfl, C7_change_status_frame DataSource.VEHICLES "102" "In Port"
    ⟨"Honda", "Fit", "Shipped", "Kandy"⟩ rfl⟩

/-- C8: for an id absent from the store, `get_vehicle_details` returns a
string (it does not raise) that states the vehicle was not found and offers
at most three other valid ids. -/
theorem C8_not_found (s : Store) (vid : String)
    (h : DataSource.lookupV s vid = none) :
    McpServer.run_get s vid
      = Except.ok (McpServer.renderNotFound vid
          (joinComma (((DataSource.list_vehicles s).take 3).map Prod.fst))) ∧
    (((DataSource.list_vehicles s).take 3).map Prod.fst).length ≤ 3 ∧
    containsSub (McpServer.renderNotFound vid
        (joinComma (((DataSource.list_vehicles s).take 3).map Prod.fst)))
      "not found" = true := by
  refine ⟨?_, ?_, ?_⟩
  · simp [McpServer.run_get, DataSource.get_vehicle, h,
      McpServer.get_vehicle_details, McpServer.list_vehicles_internal]
  · simp only [List.length_map, List.length_take]
    exact le_trans (Nat.min_le_left _ _) (le_refl 3)
  · show containsSub (("Error: Vehicle " ++ vid) ++ " not found. Nearby IDs: "
      ++ joinComma (((DataSource.list_vehicles s).take 3).map Prod.fst))
      "not found" = true
    exact containsSub_sub_append ("Error: Vehicle " ++ vid)
      " not found. Nearby IDs: "
      (joinComma (((DataSource.list_vehicles s).take 3).map Prod.fst))
      "not found" (by decide)

/-- C8 witness: asking for the nonexistent vehicle 999. -/
theorem C8_witness :
    DataSource.lookupV DataSource.VEHICLES "999" = none ∧
    (McpServer.run_get DataSource.VEHICLES "999"
       = Except.ok (McpServer.renderNotFound "999"
           (joinComma (((DataSource.list_vehicles DataSource.VEHICLES).take 3).map
             Prod.fst))) ∧
     (((DataSource.list_vehicles DataSource.VEHICLES).take 3).map
        Prod.fst).length ≤ 3 ∧
     containsSub (McpServer.renderNotFound "999"
         (joinComma (((DataSource.list_vehicles DataSource.VEHICLES).take 3).map
           Prod.fst)))
       "not found" = true) :=
  ⟨rfl, C8_not_found DataSource.VEHICLES "999" rfl⟩
